import Mathlib

/-!
Cinobelix: tile-pyramid traversal and resilient fetch.

A shallow embedding of `pkg/geo/bbox.go` and of the `tilesGenerator` of
`cmd/maptiles/main.go`.

* Go's `int` (on a 64-bit platform) and `time.Duration` are 64-bit signed
  integers: arithmetic that can leave the range is wrapped explicitly
  (`wrap64`). Loop counters start at 0 and only count upwards below a bound
  that fits, so they are natural numbers.
* Go's `float64` is Lean's `Float` (IEEE-754 binary64). Its operations are
  opaque to the logic: every theorem below that goes through `BBox` holds
  whatever the floating-point operations compute.
* The collaborators (context, tile server, store) are an environment `Env` of
  oracles. Every call is identified by the tile and retry counter (or the zoom
  level, for `Flush`) at which it is made; each such identity occurs at most
  once in a run, so an oracle keyed by it covers every possible behaviour.
* Effects are recorded as a trace of `Event`s. The number of `ctx.Err()` polls
  made so far is threaded through as state: a context, once cancelled, stays
  cancelled, so its behaviour is fixed by the index of the first poll that
  sees the cancellation.
-/

namespace Cinobelix

/-! ## Machine integers -/

/-- Two's-complement wrap of an integer into the range of a 64-bit signed integer. -/
def wrap64 (i : Int) : Int := (i + 2 ^ 63) % 2 ^ 64 - 2 ^ 63

/-- Go's `a << s` on a 64-bit signed integer for a shift count `s >= 0`
(bits shifted out are lost, the result is reinterpreted as signed). -/
def shl64 (a : Int) (s : Nat) : Int := wrap64 (a * 2 ^ s)

/-- The constant `time.Second`, in nanoseconds. -/
def timeSecond : Int := 1000000000

/-- The argument of `time.Sleep` in `fetchTile`: `(1 << retry) * time.Second`,
computed in `time.Duration` (64-bit signed nanoseconds). -/
def sleepDuration (retry : Nat) : Int := wrap64 (shl64 1 retry * timeSecond)

/-! ## pkg/geo/bbox.go -/

/-- The type `geo.BBox`. -/
structure BBox where
  MinLat : Float
  MinLon : Float
  MaxLat : Float
  MaxLon : Float

/-- The constant `math.Pi`, rounded to float64. -/
def mathPi : Float := 3.14159265358979323846264338327950288419716939937510582097494459

/-- Go's builtin `max` on float64: NaN if either argument is NaN
(the sign of a zero result is not modelled; `<=` does not see it). -/
def fmax (a b : Float) : Float :=
  if a.isNaN || b.isNaN then 0.0 / 0.0 else if a ≤ b then b else a

/-- Go's builtin `min` on float64: NaN if either argument is NaN. -/
def fmin (a b : Float) : Float :=
  if a.isNaN || b.isNaN then 0.0 / 0.0 else if a ≤ b then a else b

/-- The method `BBox.leftEdgeLon`. -/
def BBox.leftEdgeLon (_b : BBox) (x : Int) (z : Nat) : Float :=
  let n := Float.ofInt (shl64 1 z)
  let mapX := Float.ofInt x / n
  mapX * 360.0 - 180.0

/-- The method `BBox.topEdgeLat`. When the model is run, `Float.atan` and
`Float.sinh` are those of the C library, which can differ from `math.Atan` and
`math.Sinh` of Go in the last bit of the result; no theorem depends on the
values they return. -/
def BBox.topEdgeLat (_b : BBox) (y : Int) (z : Nat) : Float :=
  let n := Float.ofInt (shl64 1 z)
  let mapY := Float.ofInt y / n
  let rad := Float.atan (Float.sinh (mathPi * (1.0 - 2.0 * mapY)))
  rad * 180.0 / mathPi

/-- The method `BBox.ContainsColumn`. -/
def BBox.ContainsColumn (b : BBox) (x z : Nat) : Bool :=
  let minLon := b.leftEdgeLon x z
  let maxLon := b.leftEdgeLon (wrap64 (x + 1)) z
  decide (fmax minLon b.MinLon ≤ fmin maxLon b.MaxLon)

/-- The method `BBox.ContainsRow`. -/
def BBox.ContainsRow (b : BBox) (y z : Nat) : Bool :=
  let minLat := b.topEdgeLat (wrap64 (y + 1)) z
  let maxLat := b.topEdgeLat y z
  decide (fmax minLat b.MinLat ≤ fmin maxLat b.MaxLat)

/-- The method `BBox.ContainsTile`. -/
def BBox.ContainsTile (b : BBox) (x y z : Nat) : Bool :=
  b.ContainsColumn x z && b.ContainsRow y z

/-! ## cmd/maptiles/main.go: configuration -/

/-- The type `DetailedRegionConfig`. -/
structure DetailedRegionConfig where
  Name : String
  BBox : BBox
  MaxZoom : Int

/-- The type `Config`. -/
structure Config where
  URLTemplate : String
  PlanetMaxZoom : Int
  DetailedRegions : List DetailedRegionConfig

/-! ## Environment, errors, events -/

/-- What `http.Get(url)` returns: a transport error, or a response with a status code. -/
inductive HttpResult where
  | transportError
  | status (code : Int)
deriving DecidableEq, Repr

/-- The non-nil `error` values the traversal can return. -/
inductive Err where
  /-- The value of `ctx.Err()` of a cancelled context. -/
  | canceled
  /-- The error `tile server responded with status code %d (%s)`. -/
  | badStatus (code : Int)
  /-- The error `failed to flush the filesystem: %w`. -/
  | flushFailed
deriving DecidableEq, Repr

/-- The result of a call: `return nil`, `return err`, or no return within the
fuel given to the retry loop of `fetchTile`. -/
inductive Res where
  | ok
  | fail (e : Err)
  | outOfFuel
deriving DecidableEq, Repr

/-- The observable actions of a run, in the order they happen. -/
inductive Event where
  /-- A call `t.fetchTile(ctx, x, y, z, _)`. -/
  | fetchTile (x y z : Nat)
  /-- A call `http.Get(url)` for the tile, with the value of `retry`. -/
  | get (x y z retry : Nat)
  /-- A call `time.Sleep(d)`, `d` in nanoseconds. -/
  | sleep (d : Int)
  /-- A call `t.fs.SetEntryFile(ctx, _, resp.Body)` for the tile. -/
  | setEntryFile (x y z retry : Nat)
  /-- A call `t.fs.Flush(ctx)`, made after the layer of zoom `z`. -/
  | flush (z : Nat)
deriving DecidableEq, Repr

/-- The collaborators of a run. -/
structure Env where
  /-- The context: `none` if it is never cancelled, `some c` if the polls of
  `ctx.Err()` numbered `c` and later (counting from 0) see the cancellation. -/
  cancelAt : Option Nat
  /-- The tile server: the outcome of the GET for tile `x y z` at `retry`. -/
  httpGet : Nat → Nat → Nat → Nat → HttpResult
  /-- The store: whether `SetEntryFile` for tile `x y z` at `retry` returns an error. -/
  setEntryFileFails : Nat → Nat → Nat → Nat → Bool
  /-- The store: whether the `Flush` after the layer of zoom `z` returns an error. -/
  flushFails : Nat → Bool

/-- Whether `ctx.Err() != nil` at the poll number `polls`. -/
def ctxErr (env : Env) (polls : Nat) : Bool :=
  match env.cancelAt with
  | none => false
  | some c => decide (c ≤ polls)

/-- The outcome of a call: its result, the number of polls of `ctx.Err()` made
up to its return, and the events it produced. -/
structure Run where
  res : Res
  polls : Nat
  trace : List Event
deriving DecidableEq, Repr

/-! ## cmd/maptiles/main.go: tilesGenerator -/

/-- The retry loop of `fetchTile`, lines 121-179:
`for retry := 0; ctx.Err() == nil; retry++ { ... }; return ctx.Err()`.
The loop has no bound of its own, so the model takes fuel. -/
def fetchTileLoop (env : Env) (x y z : Nat) : Nat → Nat → Nat → Run
  | 0, _, polls => ⟨Res.outOfFuel, polls, []⟩
  | fuel + 1, retry, polls =>
    if ctxErr env polls then
      ⟨if ctxErr env (polls + 1) then Res.fail Err.canceled else Res.ok, polls + 2, []⟩
    else
      match env.httpGet x y z retry with
      | HttpResult.transportError =>
        let r := fetchTileLoop env x y z fuel (retry + 1) (polls + 1)
        ⟨r.res, r.polls, Event.get x y z retry :: Event.sleep (sleepDuration retry) :: r.trace⟩
      | HttpResult.status code =>
        if 400 ≤ code ∧ code < 500 ∧ retry > 7 then
          ⟨Res.fail (Err.badStatus code), polls + 1, [Event.get x y z retry]⟩
        else if 400 ≤ code then
          let r := fetchTileLoop env x y z fuel (retry + 1) (polls + 1)
          ⟨r.res, r.polls, Event.get x y z retry :: Event.sleep (sleepDuration retry) :: r.trace⟩
        else if env.setEntryFileFails x y z retry then
          let r := fetchTileLoop env x y z fuel (retry + 1) (polls + 1)
          ⟨r.res, r.polls, Event.get x y z retry :: Event.setEntryFile x y z retry ::
            Event.sleep (sleepDuration retry) :: r.trace⟩
        else
          ⟨Res.ok, polls + 1, [Event.get x y z retry, Event.setEntryFile x y z retry]⟩

/-- The method `tilesGenerator.fetchTile`. The URL it builds from the template
stands for the tile, and the logger is left out. -/
def fetchTile (env : Env) (fuel x y z polls : Nat) : Run :=
  let r := fetchTileLoop env x y z fuel 0 polls
  ⟨r.res, r.polls, Event.fetchTile x y z :: r.trace⟩

/-- The loop shape shared by `genXLayer`, `genZLayer`, their `NoConstraints`
variants and `Process`:
`for i := 0; ctx.Err() == nil && i < n; i++ { if err := body(i); err != nil { return err } }; return nil`,
run over the values of `i` that are left. The guard polls the context before
it compares `i` with the bound, also on the last evaluation. -/
def forLoop (env : Env) (body : Nat → Nat → Run) : List Nat → Nat → Run
  | [], polls => ⟨Res.ok, polls + 1, []⟩
  | i :: rest, polls =>
    if ctxErr env polls then ⟨Res.ok, polls + 1, []⟩
    else
      let r := body i (polls + 1)
      match r.res with
      | Res.ok =>
        let r2 := forLoop env body rest r.polls
        ⟨r2.res, r2.polls, r.trace ++ r2.trace⟩
      | e => ⟨e, r.polls, r.trace⟩

/-- The number of iterations of `for i := 0; ... && i < 1<<z; i++`. -/
def layerSize (z : Nat) : Nat := (shl64 1 z).toNat

/-- The value of `isDetailed` in `genXLayer`, lines 189-199. -/
def tileIsDetailed (cfg : Config) (x y z : Nat) : Bool :=
  cfg.DetailedRegions.any fun region =>
    !decide ((z : Int) > region.MaxZoom) && region.BBox.ContainsTile x y z

/-- The value of `isDetailed` in `genZLayer`, lines 229-238. -/
def columnIsDetailed (cfg : Config) (x z : Nat) : Bool :=
  cfg.DetailedRegions.any fun region =>
    !decide ((z : Int) > region.MaxZoom) && region.BBox.ContainsColumn x z

/-- The method `tilesGenerator.genXLayerNoConstraints`. -/
def genXLayerNoConstraints (env : Env) (fuel x z polls : Nat) : Run :=
  forLoop env (fun y p => fetchTile env fuel x y z p) (List.range (layerSize z)) polls

/-- The method `tilesGenerator.genZLayerNoConstraints`. -/
def genZLayerNoConstraints (env : Env) (fuel z polls : Nat) : Run :=
  forLoop env (fun x p => genXLayerNoConstraints env fuel x z p) (List.range (layerSize z)) polls

/-- The method `tilesGenerator.genXLayer`. -/
def genXLayer (env : Env) (cfg : Config) (fuel x z polls : Nat) : Run :=
  forLoop env
    (fun y p => if tileIsDetailed cfg x y z then fetchTile env fuel x y z p else ⟨Res.ok, p, []⟩)
    (List.range (layerSize z)) polls

/-- The method `tilesGenerator.genZLayer`. -/
def genZLayer (env : Env) (cfg : Config) (fuel z polls : Nat) : Run :=
  if (z : Int) ≤ cfg.PlanetMaxZoom then genZLayerNoConstraints env fuel z polls
  else
    forLoop env
      (fun x p => if columnIsDetailed cfg x z then genXLayer env cfg fuel x z p else ⟨Res.ok, p, []⟩)
      (List.range (layerSize z)) polls

/-- The value of `maxZoomLevel` in `Process`, lines 289-292. -/
def maxZoomLevel (cfg : Config) : Int :=
  cfg.DetailedRegions.foldl (fun m region => max m region.MaxZoom) cfg.PlanetMaxZoom

/-- One iteration of the loop of `Process`, lines 296-303. -/
def processLayer (env : Env) (cfg : Config) (fuel z polls : Nat) : Run :=
  let r := genZLayer env cfg fuel z polls
  match r.res with
  | Res.ok =>
    ⟨if env.flushFails z then Res.fail Err.flushFailed else Res.ok, r.polls,
      r.trace ++ [Event.flush z]⟩
  | e => ⟨e, r.polls, r.trace⟩

/-- The method `tilesGenerator.Process`, started when `polls` polls of the
context have been made. The loop `for z := 0; ... && z <= maxZoomLevel; z++`
runs over `z < maxZoomLevel + 1` (for `maxZoomLevel` below the largest `int`,
where `z++` does not wrap). -/
def Process (env : Env) (cfg : Config) (fuel polls : Nat) : Run :=
  forLoop env (fun z p => processLayer env cfg fuel z p)
    (List.range (maxZoomLevel cfg + 1).toNat) polls

/-! ## Observations of a run -/

/-- The tiles passed to `fetchTile`, as `(z, x, y)`, in the order of the calls. -/
def fetched (t : List Event) : List (Nat × Nat × Nat) :=
  t.filterMap fun e => match e with
    | Event.fetchTile x y z => some (z, x, y)
    | _ => none

/-- The calls of `fetchTile` and of `Flush` of a trace, in order. -/
def marksOf (t : List Event) : List Event :=
  t.filterMap fun e => match e with
    | Event.fetchTile x y z => some (Event.fetchTile x y z)
    | Event.flush z => some (Event.flush z)
    | _ => none

/-- The zoom levels of the `Flush` calls of a trace, in order. -/
def flushesOf (t : List Event) : List Nat :=
  t.filterMap fun e => match e with
    | Event.flush z => some z
    | _ => none

/-- The durations of the `time.Sleep` calls of a trace, in order. -/
def sleepsOf (t : List Event) : List Int :=
  t.filterMap fun e => match e with
    | Event.sleep d => some d
    | _ => none

/-- Whether the traversal fetches the tile `(x, y, z)`: the branch of
`genZLayer` on `z <= PlanetMaxZoom`, then the tile test of `genXLayer`. -/
def inScope (cfg : Config) (x y z : Nat) : Bool :=
  decide ((z : Int) ≤ cfg.PlanetMaxZoom) || tileIsDetailed cfg x y z

/-- A projection of the trace that does not look inside a fetch: it drops the
GETs, the sleeps and the store writes. -/
def IgnoresFetchBody {β : Type} (f : Event → Option β) : Prop :=
  (∀ x y z r, f (Event.get x y z r) = none) ∧
  (∀ d, f (Event.sleep d) = none) ∧
  (∀ x y z r, f (Event.setEntryFile x y z r) = none)

/-- The error with which an event ends the traversal, if it does: a GET
answered with a 4xx status when `retry > 7` (lines 132-144), and a `Flush` that
returns an error (lines 300-303). -/
def fatalOf (env : Env) : Event → Option Err
  | Event.get x y z r =>
    match env.httpGet x y z r with
    | HttpResult.status c => if 400 ≤ c ∧ c < 500 ∧ r > 7 then some (Err.badStatus c) else none
    | HttpResult.transportError => none
  | Event.flush z => if env.flushFails z then some Err.flushFailed else none
  | _ => none

/-- A fatal event in the trace is its last event, and the result is its error. -/
def EndsAtFatal (env : Env) (res : Res) (t : List Event) : Prop :=
  ∀ pre e post err, t = pre ++ e :: post → fatalOf env e = some err →
    post = [] ∧ res = Res.fail err

/-- A failed `SetEntryFile` is followed at once by the backoff sleep of its
round of the retry loop. -/
def StoreErrorsSleep (env : Env) (t : List Event) : Prop :=
  ∀ pre post x y z r, t = pre ++ Event.setEntryFile x y z r :: post →
    env.setEntryFileFails x y z r = true →
    ∃ post', post = Event.sleep (sleepDuration r) :: post'

/-! ## The enumeration of the specification -/

/-- The effective maximum zoom in the words of the specification:
`max(planetMaxZoom, max over regions of maxZoom)`. -/
def specMaxZoom (cfg : Config) : Int :=
  (cfg.DetailedRegions.map fun region => region.MaxZoom).foldr max cfg.PlanetMaxZoom

/-- Scope in the words of the specification: `z <= planetMaxZoom`, or some
region with `maxZoom >= z` contains the tile. -/
def specInScope (cfg : Config) (x y z : Nat) : Bool :=
  decide ((z : Int) ≤ cfg.PlanetMaxZoom) ||
    cfg.DetailedRegions.any fun region =>
      decide (region.MaxZoom ≥ (z : Int)) && region.BBox.ContainsTile x y z

/-- The naive enumeration of the specification: all `(z, x, y)` with `z` from 0
to the effective maximum zoom, `x` and `y` in `[0, 2^z)`, zoom-major, then
column-major, keeping the tiles in scope. -/
def naiveTiles (cfg : Config) : List (Nat × Nat × Nat) :=
  (List.range (specMaxZoom cfg + 1).toNat).flatMap fun z =>
    (List.range (2 ^ z)).flatMap fun x =>
      ((List.range (2 ^ z)).filter fun y => specInScope cfg x y z).map fun y => (z, x, y)

/-- Strictly increasing lexicographic order on `(z, x, y)`. -/
def tileLt (a b : Nat × Nat × Nat) : Prop :=
  a.1 < b.1 ∨ (a.1 = b.1 ∧ (a.2.1 < b.2.1 ∨ (a.2.1 = b.2.1 ∧ a.2.2 < b.2.2)))

/-! ## Configurations and environments of the examples -/

/-- The default configuration of `main.go`: the planet to zoom 9, Poland to zoom 14. -/
def defaultConfig : Config :=
  ⟨"http://cinode-store:8080/tile/{z}/{x}/{y}.png", 9,
    [⟨"Poland", ⟨49.0061, 14.1213, 54.8357, 24.1533⟩, 14⟩]⟩

/-- A configuration with no detailed regions: the planet up to zoom `P`. -/
def planetOnly (P : Int) : Config :=
  ⟨"http://cinode-store:8080/tile/{z}/{x}/{y}.png", P, []⟩

/-- Every GET is answered 200, every store call succeeds, no cancellation. -/
def envOk : Env :=
  ⟨none, fun _ _ _ _ => HttpResult.status 200, fun _ _ _ _ => false, fun _ => false⟩

/-- Every GET is answered 404; no cancellation. -/
def env404 : Env :=
  ⟨none, fun _ _ _ _ => HttpResult.status 404, fun _ _ _ _ => false, fun _ => false⟩

/-- Every GET fails at the transport level; no cancellation. -/
def envDown : Env :=
  ⟨none, fun _ _ _ _ => HttpResult.transportError, fun _ _ _ _ => false, fun _ => false⟩

/-- Every GET is answered 200; `SetEntryFile` returns an error on the first
attempt of every tile and succeeds on the second; no cancellation. -/
def envStoreFlaky : Env :=
  ⟨none, fun _ _ _ _ => HttpResult.status 200, fun _ _ _ r => decide (r = 0), fun _ => false⟩

/-- Every GET is answered 200 and every `SetEntryFile` succeeds; the `Flush`
after the layer of zoom 0 returns an error; no cancellation. -/
def envFlushFails : Env :=
  ⟨none, fun _ _ _ _ => HttpResult.status 200, fun _ _ _ _ => false, fun z => decide (z = 0)⟩

/-- Every GET is answered 200 and every store call succeeds; the context is
cancelled so that the poll number `c` is the first to see it. -/
def envCancelAt (c : Nat) : Env :=
  ⟨some c, fun _ _ _ _ => HttpResult.status 200, fun _ _ _ _ => false, fun _ => false⟩

/-! # Theorems -/

/-! ## Column pruning -/

/-- A tile test that succeeds implies the column test: `ContainsTile` is the
conjunction of `ContainsColumn` and `ContainsRow`. -/
theorem columnIsDetailed_of_tileIsDetailed (cfg : Config) (x y z : Nat)
    (h : tileIsDetailed cfg x y z = true) : columnIsDetailed cfg x z = true := by
  unfold tileIsDetailed at h
  unfold columnIsDetailed
  rw [List.any_eq_true] at h ⊢
  obtain ⟨r, hr, hrt⟩ := h
  refine ⟨r, hr, ?_⟩
  simp only [BBox.ContainsTile, Bool.and_eq_true] at hrt ⊢
  exact ⟨hrt.1, hrt.2.1⟩

/-- C6. Column pruning is sound: if no region with `MaxZoom >= z` contains the
column `x` at zoom `z`, the column test of `genZLayer` is false (the column is
skipped), and for every row `y` no region with `MaxZoom >= z` contains the tile
`(x, y, z)`: the tile test of `genXLayer` is false as well. -/
theorem column_pruning_sound (cfg : Config) (x z : Nat)
    (h : ∀ r ∈ cfg.DetailedRegions, (z : Int) ≤ r.MaxZoom → r.BBox.ContainsColumn x z = false) :
    columnIsDetailed cfg x z = false ∧
    ∀ y : Nat,
      (∀ r ∈ cfg.DetailedRegions, (z : Int) ≤ r.MaxZoom → r.BBox.ContainsTile x y z = false) ∧
      tileIsDetailed cfg x y z = false := by
  have hcol : columnIsDetailed cfg x z = false := by
    unfold columnIsDetailed
    rw [List.any_eq_false]
    intro r hr
    by_cases hz : (z : Int) ≤ r.MaxZoom
    · simp [h r hr hz]
    · simp [not_le.mp hz]
  refine ⟨hcol, fun y => ⟨?_, ?_⟩⟩
  · intro r hr hz
    simp [BBox.ContainsTile, h r hr hz]
  · cases ht : tileIsDetailed cfg x y z
    · rfl
    · rw [columnIsDetailed_of_tileIsDetailed cfg x y z ht] at hcol
      exact absurd hcol (by decide)

/-- C6 at the default configuration, zoom 15 (above the zoom of every region). -/
theorem column_pruning_sound_witness :
    (∀ r ∈ defaultConfig.DetailedRegions, ((15 : Nat) : Int) ≤ r.MaxZoom →
      r.BBox.ContainsColumn 3 15 = false) ∧
    (columnIsDetailed defaultConfig 3 15 = false ∧
     ∀ y : Nat,
      (∀ r ∈ defaultConfig.DetailedRegions, ((15 : Nat) : Int) ≤ r.MaxZoom →
        r.BBox.ContainsTile 3 y 15 = false) ∧
      tileIsDetailed defaultConfig 3 y 15 = false) := by
  have h : ∀ r ∈ defaultConfig.DetailedRegions, ((15 : Nat) : Int) ≤ r.MaxZoom →
      r.BBox.ContainsColumn 3 15 = false := by
    intro r hr hz
    simp only [defaultConfig, List.mem_singleton] at hr
    subst hr
    exact absurd hz (by decide)
  exact ⟨h, column_pruning_sound defaultConfig 3 15 h⟩


/-! ## Fatal events end the run -/

theorem endsAtFatal_nil (env : Env) (res : Res) : EndsAtFatal env res [] := by
  intro pre e post c h
  simp at h

theorem endsAtFatal_cons (env : Env) (res : Res) (ev : Event) (t : List Event)
    (hne : fatalOf env ev = none) (h : EndsAtFatal env res t) :
    EndsAtFatal env res (ev :: t) := by
  intro pre e post c heq hf
  cases pre with
  | nil =>
    simp only [List.nil_append, List.cons.injEq] at heq
    rw [← heq.1, hne] at hf
    exact absurd hf (by simp)
  | cons a pre' =>
    simp only [List.cons_append, List.cons.injEq] at heq
    exact h pre' e post c heq.2 hf

theorem endsAtFatal_single (env : Env) (res : Res) (ev : Event)
    (h : ∀ err, fatalOf env ev = some err → res = Res.fail err) :
    EndsAtFatal env res [ev] := by
  intro pre e post c heq hf
  cases pre with
  | nil =>
    simp only [List.nil_append, List.cons.injEq] at heq
    rw [← heq.1] at hf
    exact ⟨heq.2.symm, h c hf⟩
  | cons a pre' => simp at heq

theorem endsAtFatal_append (env : Env) (res : Res) (t1 t2 : List Event)
    (h1 : EndsAtFatal env Res.ok t1) (h2 : EndsAtFatal env res t2) :
    EndsAtFatal env res (t1 ++ t2) := by
  intro pre e post c heq hf
  rcases List.append_eq_append_iff.mp heq with ⟨a, _, hb⟩ | ⟨a, ha, hb⟩
  · exact h2 a e post c hb hf
  · cases a with
    | nil =>
      simp only [List.nil_append] at hb
      exact h2 [] e post c (by simpa using hb.symm) hf
    | cons b a' =>
      simp only [List.cons_append, List.cons.injEq] at hb
      have h3 := h1 pre b a' c (by rw [ha]) (by rw [← hb.1]; exact hf)
      exact absurd h3.2 (by simp)

theorem fetchTileLoop_endsAtFatal (env : Env) (x y z : Nat) :
    ∀ fuel retry polls,
      EndsAtFatal env (fetchTileLoop env x y z fuel retry polls).res
        (fetchTileLoop env x y z fuel retry polls).trace := by
  intro fuel
  induction fuel with
  | zero => intro retry polls; simp [fetchTileLoop, endsAtFatal_nil]
  | succ n ih =>
    intro retry polls
    rw [fetchTileLoop]
    split
    · exact endsAtFatal_nil _ _
    · split
      · rename_i hget
        exact endsAtFatal_cons _ _ _ _ (by simp [fatalOf, hget])
          (endsAtFatal_cons _ _ _ _ rfl (ih _ _))
      · rename_i code hget
        split
        · rename_i hfatal
          apply endsAtFatal_single
          intro err herr
          simp only [fatalOf, hget, hfatal, and_self, if_true, Option.some.injEq] at herr
          rw [herr]
        · rename_i hnf
          have hne : fatalOf env (Event.get x y z retry) = none := by
            simp only [fatalOf, hget, hnf, if_false]
          split
          · exact endsAtFatal_cons _ _ _ _ hne (endsAtFatal_cons _ _ _ _ rfl (ih _ _))
          · split
            · exact endsAtFatal_cons _ _ _ _ hne (endsAtFatal_cons _ _ _ _ rfl
                (endsAtFatal_cons _ _ _ _ rfl (ih _ _)))
            · exact endsAtFatal_cons _ _ _ _ hne (endsAtFatal_cons _ _ _ _ rfl
                (endsAtFatal_nil _ _))

theorem fetchTile_endsAtFatal (env : Env) (fuel x y z polls : Nat) :
    EndsAtFatal env (fetchTile env fuel x y z polls).res (fetchTile env fuel x y z polls).trace :=
  endsAtFatal_cons _ _ _ _ rfl (fetchTileLoop_endsAtFatal env x y z fuel 0 polls)

theorem forLoop_endsAtFatal (env : Env) (body : Nat → Nat → Run)
    (hb : ∀ i p, EndsAtFatal env (body i p).res (body i p).trace) :
    ∀ l polls, EndsAtFatal env (forLoop env body l polls).res (forLoop env body l polls).trace := by
  intro l
  induction l with
  | nil => intro polls; simp [forLoop, endsAtFatal_nil]
  | cons i rest ih =>
    intro polls
    rw [forLoop]
    split
    · exact endsAtFatal_nil _ _
    · cases hres : (body i (polls + 1)).res with
      | ok =>
        simp only [hres]
        exact endsAtFatal_append _ _ _ _ (hres ▸ hb i (polls + 1)) (ih _)
      | fail e =>
        simp only [hres]
        exact hres ▸ hb i (polls + 1)
      | outOfFuel =>
        simp only [hres]
        exact hres ▸ hb i (polls + 1)

theorem genXLayerNoConstraints_endsAtFatal (env : Env) (fuel x z polls : Nat) :
    EndsAtFatal env (genXLayerNoConstraints env fuel x z polls).res
      (genXLayerNoConstraints env fuel x z polls).trace :=
  forLoop_endsAtFatal env _ (fun y p => fetchTile_endsAtFatal env fuel x y z p) _ _

theorem genZLayerNoConstraints_endsAtFatal (env : Env) (fuel z polls : Nat) :
    EndsAtFatal env (genZLayerNoConstraints env fuel z polls).res
      (genZLayerNoConstraints env fuel z polls).trace :=
  forLoop_endsAtFatal env _ (fun x p => genXLayerNoConstraints_endsAtFatal env fuel x z p) _ _

theorem genXLayer_endsAtFatal (env : Env) (cfg : Config) (fuel x z polls : Nat) :
    EndsAtFatal env (genXLayer env cfg fuel x z polls).res
      (genXLayer env cfg fuel x z polls).trace := by
  apply forLoop_endsAtFatal
  intro y p
  split
  · exact fetchTile_endsAtFatal env fuel x y z p
  · exact endsAtFatal_nil _ _

theorem genZLayer_endsAtFatal (env : Env) (cfg : Config) (fuel z polls : Nat) :
    EndsAtFatal env (genZLayer env cfg fuel z polls).res
      (genZLayer env cfg fuel z polls).trace := by
  unfold genZLayer
  split
  · exact genZLayerNoConstraints_endsAtFatal env fuel z polls
  · apply forLoop_endsAtFatal
    intro x p
    split
    · exact genXLayer_endsAtFatal env cfg fuel x z p
    · exact endsAtFatal_nil _ _

theorem processLayer_endsAtFatal (env : Env) (cfg : Config) (fuel z polls : Nat) :
    EndsAtFatal env (processLayer env cfg fuel z polls).res
      (processLayer env cfg fuel z polls).trace := by
  have hg := genZLayer_endsAtFatal env cfg fuel z polls
  unfold processLayer
  cases hres : (genZLayer env cfg fuel z polls).res with
  | ok =>
    simp only [hres]
    rw [hres] at hg
    apply endsAtFatal_append _ _ _ _ hg
    apply endsAtFatal_single
    intro err herr
    by_cases hf : env.flushFails z = true
    · simp only [fatalOf, hf, if_true, Option.some.injEq] at herr
      simp [hf, herr]
    · simp [fatalOf, hf] at herr
  | fail e =>
    simp only [hres]
    exact hres ▸ hg
  | outOfFuel =>
    simp only [hres]
    exact hres ▸ hg

theorem Process_endsAtFatal (env : Env) (cfg : Config) (fuel polls : Nat) :
    EndsAtFatal env (Process env cfg fuel polls).res (Process env cfg fuel polls).trace :=
  forLoop_endsAtFatal env _ (fun z p => processLayer_endsAtFatal env cfg fuel z p) _ _


/-! ## Store errors inside a run -/

theorem storeErrorsSleep_nil (env : Env) : StoreErrorsSleep env [] := by
  intro pre post x y z r h
  simp at h

theorem storeErrorsSleep_cons (env : Env) (ev : Event) (t : List Event)
    (hev : ∀ x y z r, ev = Event.setEntryFile x y z r → env.setEntryFileFails x y z r = true →
      ∃ t', t = Event.sleep (sleepDuration r) :: t')
    (h : StoreErrorsSleep env t) : StoreErrorsSleep env (ev :: t) := by
  intro pre post x y z r heq hfail
  cases pre with
  | nil =>
    simp only [List.nil_append, List.cons.injEq] at heq
    obtain ⟨t', ht'⟩ := hev x y z r heq.1 hfail
    exact ⟨t', by rw [← heq.2, ht']⟩
  | cons a pre' =>
    simp only [List.cons_append, List.cons.injEq] at heq
    exact h pre' post x y z r heq.2 hfail

theorem storeErrorsSleep_append (env : Env) (t1 t2 : List Event)
    (h1 : StoreErrorsSleep env t1) (h2 : StoreErrorsSleep env t2) :
    StoreErrorsSleep env (t1 ++ t2) := by
  intro pre post x y z r heq hfail
  rcases List.append_eq_append_iff.mp heq with ⟨a, _, hb⟩ | ⟨a, ha, hb⟩
  · exact h2 a post x y z r hb hfail
  · cases a with
    | nil =>
      simp only [List.nil_append] at hb
      exact h2 [] post x y z r (by simpa using hb.symm) hfail
    | cons b a' =>
      simp only [List.cons_append, List.cons.injEq] at hb
      obtain ⟨post', hp⟩ := h1 pre a' x y z r (by rw [ha, hb.1]) hfail
      exact ⟨post' ++ t2, by rw [hb.2, hp]; rfl⟩

theorem fetchTileLoop_storeErrorsSleep (env : Env) (x y z : Nat) :
    ∀ fuel retry polls, StoreErrorsSleep env (fetchTileLoop env x y z fuel retry polls).trace := by
  intro fuel
  induction fuel with
  | zero => intro retry polls; simp [fetchTileLoop, storeErrorsSleep_nil]
  | succ n ih =>
    intro retry polls
    have hget : ∀ t, StoreErrorsSleep env t → StoreErrorsSleep env (Event.get x y z retry :: t) :=
      fun t ht => storeErrorsSleep_cons env _ t (fun _ _ _ _ h => by cases h) ht
    have hsleep : ∀ t, StoreErrorsSleep env t →
        StoreErrorsSleep env (Event.sleep (sleepDuration retry) :: t) :=
      fun t ht => storeErrorsSleep_cons env _ t (fun _ _ _ _ h => by cases h) ht
    rw [fetchTileLoop]
    split
    · exact storeErrorsSleep_nil env
    · split
      · exact hget _ (hsleep _ (ih _ _))
      · split
        · exact hget _ (storeErrorsSleep_nil env)
        · split
          · exact hget _ (hsleep _ (ih _ _))
          · split
            · refine hget _ (storeErrorsSleep_cons env _ _ ?_ (hsleep _ (ih _ _)))
              intro x' y' z' r' heq _
              cases heq
              exact ⟨_, rfl⟩
            · rename_i hok
              refine hget _ (storeErrorsSleep_cons env _ _ ?_ (storeErrorsSleep_nil env))
              intro x' y' z' r' heq hfail
              cases heq
              exact absurd hfail hok

theorem forLoop_storeErrorsSleep (env : Env) (body : Nat → Nat → Run)
    (hb : ∀ i p, StoreErrorsSleep env (body i p).trace) :
    ∀ l polls, StoreErrorsSleep env (forLoop env body l polls).trace := by
  intro l
  induction l with
  | nil => intro polls; simp [forLoop, storeErrorsSleep_nil]
  | cons i rest ih =>
    intro polls
    rw [forLoop]
    split
    · exact storeErrorsSleep_nil env
    · cases hres : (body i (polls + 1)).res with
      | ok =>
        simp only [hres]
        exact storeErrorsSleep_append env _ _ (hb i (polls + 1)) (ih _)
      | fail e =>
        simp only [hres]
        exact hb i (polls + 1)
      | outOfFuel =>
        simp only [hres]
        exact hb i (polls + 1)

theorem fetchTile_storeErrorsSleep (env : Env) (fuel x y z polls : Nat) :
    StoreErrorsSleep env (fetchTile env fuel x y z polls).trace :=
  storeErrorsSleep_cons env _ _ (fun _ _ _ _ h => by cases h)
    (fetchTileLoop_storeErrorsSleep env x y z fuel 0 polls)

theorem genZLayer_storeErrorsSleep (env : Env) (cfg : Config) (fuel z polls : Nat) :
    StoreErrorsSleep env (genZLayer env cfg fuel z polls).trace := by
  unfold genZLayer
  split
  · exact forLoop_storeErrorsSleep env _
      (fun x p => forLoop_storeErrorsSleep env _
        (fun y q => fetchTile_storeErrorsSleep env fuel x y z q) _ p) _ polls
  · apply forLoop_storeErrorsSleep
    intro x p
    split
    · apply forLoop_storeErrorsSleep
      intro y q
      split
      · exact fetchTile_storeErrorsSleep env fuel x y z q
      · exact storeErrorsSleep_nil env
    · exact storeErrorsSleep_nil env

theorem Process_storeErrorsSleep (env : Env) (cfg : Config) (fuel polls : Nat) :
    StoreErrorsSleep env (Process env cfg fuel polls).trace := by
  apply forLoop_storeErrorsSleep
  intro z p
  have hg := genZLayer_storeErrorsSleep env cfg fuel z p
  unfold processLayer
  cases hres : (genZLayer env cfg fuel z p).res with
  | ok =>
    simp only [hres]
    exact storeErrorsSleep_append env _ _ hg
      (storeErrorsSleep_cons env _ _ (fun _ _ _ _ h => by cases h) (storeErrorsSleep_nil env))
  | fail e =>
    simp only [hres]
    exact hg
  | outOfFuel =>
    simp only [hres]
    exact hg

/-! ## The retry loop of fetchTile -/

theorem sleepDuration_small (n : Nat) (hn : n ≤ 33) : sleepDuration n = 2 ^ n * timeSecond := by
  interval_cases n <;> decide

theorem sleepsOf_fetchTileLoop (env : Env) (x y z : Nat) :
    ∀ fuel retry polls, ∃ m,
      sleepsOf (fetchTileLoop env x y z fuel retry polls).trace =
        (List.range' retry m).map sleepDuration := by
  intro fuel
  induction fuel with
  | zero => intro retry polls; exact ⟨0, by simp [fetchTileLoop, sleepsOf]⟩
  | succ n ih =>
    intro retry polls
    obtain ⟨m, hm⟩ := ih (retry + 1) (polls + 1)
    unfold sleepsOf at hm
    rw [fetchTileLoop]
    split
    · exact ⟨0, by simp [sleepsOf]⟩
    · split
      · exact ⟨m + 1, by simp [sleepsOf, hm, List.range'_succ]⟩
      · split
        · exact ⟨0, by simp [sleepsOf]⟩
        · split
          · exact ⟨m + 1, by simp [sleepsOf, hm, List.range'_succ]⟩
          · split
            · exact ⟨m + 1, by simp [sleepsOf, hm, List.range'_succ]⟩
            · exact ⟨0, by simp [sleepsOf]⟩

/-- C2. If the tile server answers every GET for the tile `(x, y, z)` with 404
and the context is not cancelled while the tile is being fetched, `fetchTile`
issues exactly nine GETs (retry 0 to 8), sleeps `2^retry` seconds after each of
the first eight, and returns the fatal error carrying the status code 404.
In every run of `Process` against that server the ninth GET of the tile is the
last event of the run (no further tile is fetched, nothing is flushed) and
`Process` returns that error. -/
theorem fetchTile_404_fatal (env : Env) (x y z fuel polls : Nat)
    (h404 : ∀ r, env.httpGet x y z r = HttpResult.status 404)
    (hctx : ∀ k, k < 9 → ctxErr env (polls + k) = false)
    (hfuel : 9 ≤ fuel) :
    fetchTile env fuel x y z polls =
      ⟨Res.fail (Err.badStatus 404), polls + 9,
        Event.fetchTile x y z ::
          ((List.range 8).flatMap fun r =>
            [Event.get x y z r, Event.sleep (2 ^ r * timeSecond)]) ++
          [Event.get x y z 8]⟩ ∧
    ∀ (cfg : Config) (fuel' polls' : Nat) (pre post : List Event),
      (Process env cfg fuel' polls').trace = pre ++ Event.get x y z 8 :: post →
      post = [] ∧ (Process env cfg fuel' polls').res = Res.fail (Err.badStatus 404) := by
  constructor
  · obtain ⟨f, rfl⟩ : ∃ f, fuel = f + 9 := ⟨fuel - 9, by omega⟩
    have h0 := hctx 0 (by omega)
    have h1 := hctx 1 (by omega)
    have h2 := hctx 2 (by omega)
    have h3 := hctx 3 (by omega)
    have h4 := hctx 4 (by omega)
    have h5 := hctx 5 (by omega)
    have h6 := hctx 6 (by omega)
    have h7 := hctx 7 (by omega)
    have h8 := hctx 8 (by omega)
    simp only [Nat.add_zero] at h0
    simp [fetchTile, fetchTileLoop, h404, h0, h1, h2, h3, h4, h5, h6, h7, h8, sleepDuration_small,
      List.range, List.range.loop, Nat.add_assoc]
  · intro cfg fuel' polls' pre post htrace
    exact Process_endsAtFatal env cfg fuel' polls' pre _ post _ htrace (by simp [fatalOf, h404])

/-- C2 at the server that answers 404 to everything, for the tile `(0, 0, 0)`. -/
theorem fetchTile_404_fatal_witness :
    (∀ r, env404.httpGet 0 0 0 r = HttpResult.status 404) ∧
    (∀ k, k < 9 → ctxErr env404 (0 + k) = false) ∧
    9 ≤ 9 ∧
    (fetchTile env404 9 0 0 0 0 =
      ⟨Res.fail (Err.badStatus 404), 0 + 9,
        Event.fetchTile 0 0 0 ::
          ((List.range 8).flatMap fun r =>
            [Event.get 0 0 0 r, Event.sleep (2 ^ r * timeSecond)]) ++
          [Event.get 0 0 0 8]⟩ ∧
    ∀ (cfg : Config) (fuel' polls' : Nat) (pre post : List Event),
      (Process env404 cfg fuel' polls').trace = pre ++ Event.get 0 0 0 8 :: post →
      post = [] ∧ (Process env404 cfg fuel' polls').res = Res.fail (Err.badStatus 404)) :=
  ⟨fun _ => rfl, fun _ _ => rfl, Nat.le_refl 9,
    fetchTile_404_fatal env404 0 0 0 9 0 (fun _ => rfl) (fun _ _ => rfl) (Nat.le_refl 9)⟩

/-- C3, as stated, fails: with a store whose `SetEntryFile` returns an error on
the first attempt, `fetchTile` does not return an error. It sleeps one second,
issues a second GET for the tile, writes again and returns nil. -/
theorem store_error_fatal_counterexample :
    envStoreFlaky.setEntryFileFails 0 0 0 0 = true ∧
    fetchTile envStoreFlaky 2 0 0 0 0 =
      ⟨Res.ok, 2,
        [Event.fetchTile 0 0 0, Event.get 0 0 0 0, Event.setEntryFile 0 0 0 0,
          Event.sleep 1000000000, Event.get 0 0 0 1, Event.setEntryFile 0 0 0 1]⟩ := by
  decide

/-- C3, amended. A `SetEntryFile` error is not fatal: after it `fetchTile`
sleeps `(1 << retry) * time.Second` and goes on with the next round of its
retry loop (`retry + 1`), as for a failed download; in every run of `Process`
a failed `SetEntryFile` is followed at once by that sleep, never by a return.
A `Flush` error is fatal: in every run of `Process` a failed `Flush` is the
last event of the run and `Process` returns the flush error. -/
theorem store_error_retried_flush_error_fatal (env : Env) (x y z fuel retry polls : Nat)
    (code : Int)
    (hctx : ctxErr env polls = false)
    (hget : env.httpGet x y z retry = HttpResult.status code)
    (hcode : code < 400)
    (hstore : env.setEntryFileFails x y z retry = true) :
    fetchTileLoop env x y z (fuel + 1) retry polls =
      ⟨(fetchTileLoop env x y z fuel (retry + 1) (polls + 1)).res,
        (fetchTileLoop env x y z fuel (retry + 1) (polls + 1)).polls,
        Event.get x y z retry :: Event.setEntryFile x y z retry ::
          Event.sleep (sleepDuration retry) ::
          (fetchTileLoop env x y z fuel (retry + 1) (polls + 1)).trace⟩ ∧
    (∀ (cfg : Config) (fuel' polls' : Nat) (pre post : List Event) (x' y' z' r' : Nat),
      (Process env cfg fuel' polls').trace = pre ++ Event.setEntryFile x' y' z' r' :: post →
      env.setEntryFileFails x' y' z' r' = true →
      ∃ post', post = Event.sleep (sleepDuration r') :: post') ∧
    ∀ (cfg : Config) (fuel' polls' zf : Nat) (pre post : List Event),
      (Process env cfg fuel' polls').trace = pre ++ Event.flush zf :: post →
      env.flushFails zf = true →
      post = [] ∧ (Process env cfg fuel' polls').res = Res.fail Err.flushFailed := by
  refine ⟨?_, ?_, ?_⟩
  · have h1 : ¬ (400 ≤ code ∧ code < 500 ∧ retry > 7) := fun h => by omega
    have h2 : ¬ (400 ≤ code) := by omega
    rw [fetchTileLoop]
    simp [hctx, hget, h1, h2, hstore]
  · intro cfg fuel' polls' pre post x' y' z' r' htrace hfail
    exact Process_storeErrorsSleep env cfg fuel' polls' pre post x' y' z' r' htrace hfail
  · intro cfg fuel' polls' zf pre post htrace hfl
    exact Process_endsAtFatal env cfg fuel' polls' pre _ post _ htrace (by simp [fatalOf, hfl])

/-- C3, amended, at the store that fails the first write of every tile. -/
theorem store_error_retried_flush_error_fatal_witness :
    ctxErr envStoreFlaky 0 = false ∧
    envStoreFlaky.httpGet 0 0 0 0 = HttpResult.status 200 ∧
    (200 : Int) < 400 ∧
    envStoreFlaky.setEntryFileFails 0 0 0 0 = true ∧
    (fetchTileLoop envStoreFlaky 0 0 0 (1 + 1) 0 0 =
      ⟨(fetchTileLoop envStoreFlaky 0 0 0 1 (0 + 1) (0 + 1)).res,
        (fetchTileLoop envStoreFlaky 0 0 0 1 (0 + 1) (0 + 1)).polls,
        Event.get 0 0 0 0 :: Event.setEntryFile 0 0 0 0 ::
          Event.sleep (sleepDuration 0) ::
          (fetchTileLoop envStoreFlaky 0 0 0 1 (0 + 1) (0 + 1)).trace⟩ ∧
    (∀ (cfg : Config) (fuel' polls' : Nat) (pre post : List Event) (x' y' z' r' : Nat),
      (Process envStoreFlaky cfg fuel' polls').trace =
        pre ++ Event.setEntryFile x' y' z' r' :: post →
      envStoreFlaky.setEntryFileFails x' y' z' r' = true →
      ∃ post', post = Event.sleep (sleepDuration r') :: post') ∧
    ∀ (cfg : Config) (fuel' polls' zf : Nat) (pre post : List Event),
      (Process envStoreFlaky cfg fuel' polls').trace = pre ++ Event.flush zf :: post →
      envStoreFlaky.flushFails zf = true →
      post = [] ∧ (Process envStoreFlaky cfg fuel' polls').res = Res.fail Err.flushFailed) :=
  ⟨rfl, rfl, by decide, rfl,
    store_error_retried_flush_error_fatal envStoreFlaky 0 0 0 1 0 0 200 rfl rfl (by decide) rfl⟩

/-- C8, as stated, fails: when every GET fails at the transport level, the
sleep after the GET with `retry = 34` is `(1 << 34) * time.Second` wrapped to
64 bits, a negative duration: it is not `2^34` seconds and it is smaller than
the sleep before it. -/
theorem backoff_wraps_at_retry_34 :
    (fetchTile envDown 36 0 0 0 0).trace[70]? = some (Event.sleep (sleepDuration 34)) ∧
    sleepDuration 34 = -1266874889709551616 ∧
    sleepDuration 34 ≠ 2 ^ 34 * timeSecond ∧
    ¬ (sleepDuration 33 < sleepDuration 34) := by
  decide

/-- C8, amended. The sleeps of one `fetchTile` call are
`(1 << retry) * time.Second` for `retry = 0, 1, 2, ...` in this order, with no
cap. For every retry index up to 33 this is exactly `2^retry` seconds: the
first sleep is one second, and for `n + 1 <= 33` the sleep before retry `n + 2`
is exactly twice, and strictly greater than, the sleep before retry `n + 1`. -/
theorem backoff_doubles (env : Env) (fuel x y z polls n : Nat) (hn : n + 1 ≤ 33) :
    (∃ m, sleepsOf (fetchTile env fuel x y z polls).trace =
      (List.range m).map sleepDuration) ∧
    sleepDuration 0 = timeSecond ∧
    sleepDuration n = 2 ^ n * timeSecond ∧
    sleepDuration (n + 1) = 2 ^ (n + 1) * timeSecond ∧
    sleepDuration (n + 1) = 2 * sleepDuration n ∧
    sleepDuration n < sleepDuration (n + 1) := by
  have h1 := sleepDuration_small n (by omega)
  have h2 := sleepDuration_small (n + 1) hn
  refine ⟨?_, by decide, h1, h2, ?_, ?_⟩
  · obtain ⟨m, hm⟩ := sleepsOf_fetchTileLoop env x y z fuel 0 polls
    refine ⟨m, ?_⟩
    unfold sleepsOf at hm
    simp only [fetchTile, sleepsOf, List.filterMap_cons, hm, List.range_eq_range']
  · rw [h1, h2, pow_succ]; ring
  · rw [h1, h2, pow_succ]
    have : (0 : Int) < 2 ^ n := by positivity
    simp only [timeSecond]
    omega

/-- C8, amended, at the last index it covers. -/
theorem backoff_doubles_witness :
    32 + 1 ≤ 33 ∧
    ((∃ m, sleepsOf (fetchTile envDown 40 0 0 0 0).trace =
      (List.range m).map sleepDuration) ∧
    sleepDuration 0 = timeSecond ∧
    sleepDuration 32 = 2 ^ 32 * timeSecond ∧
    sleepDuration (32 + 1) = 2 ^ (32 + 1) * timeSecond ∧
    sleepDuration (32 + 1) = 2 * sleepDuration 32 ∧
    sleepDuration 32 < sleepDuration (32 + 1)) :=
  ⟨by decide, backoff_doubles envDown 40 0 0 0 0 32 (by decide)⟩

/-! ## Projections of the trace of a run that is not cancelled -/

theorem ctxErr_of_cancelAt_none (env : Env) (h : env.cancelAt = none) (polls : Nat) :
    ctxErr env polls = false := by
  simp [ctxErr, h]

/-- With a context that is never cancelled, the result and the events of a
fetch do not depend on the number of polls made before it. -/
theorem fetchTileLoop_polls_irrelevant (env : Env) (hctx : env.cancelAt = none) (x y z : Nat) :
    ∀ fuel retry p q,
      (fetchTileLoop env x y z fuel retry p).res = (fetchTileLoop env x y z fuel retry q).res ∧
      (fetchTileLoop env x y z fuel retry p).trace =
        (fetchTileLoop env x y z fuel retry q).trace := by
  intro fuel
  induction fuel with
  | zero => intro retry p q; simp [fetchTileLoop]
  | succ n ih =>
    intro retry p q
    have h := ih (retry + 1) (p + 1) (q + 1)
    rw [fetchTileLoop, fetchTileLoop]
    simp only [ctxErr_of_cancelAt_none env hctx, Bool.false_eq_true, if_false]
    split
    · exact ⟨h.1, by rw [h.2]⟩
    · split
      · exact ⟨rfl, rfl⟩
      · split
        · exact ⟨h.1, by rw [h.2]⟩
        · split
          · exact ⟨h.1, by rw [h.2]⟩
          · exact ⟨rfl, rfl⟩

theorem fetchTileLoop_filterMap {β : Type} (f : Event → Option β) (hf : IgnoresFetchBody f)
    (env : Env) (x y z : Nat) :
    ∀ fuel retry polls, (fetchTileLoop env x y z fuel retry polls).trace.filterMap f = [] := by
  obtain ⟨hget, hsleep, hset⟩ := hf
  intro fuel
  induction fuel with
  | zero => intro retry polls; simp [fetchTileLoop]
  | succ n ih =>
    intro retry polls
    rw [fetchTileLoop]
    split
    · simp
    · split
      · simp [hget, hsleep, ih]
      · split
        · simp [hget]
        · split
          · simp [hget, hsleep, ih]
          · split
            · simp [hget, hsleep, hset, ih]
            · simp [hget, hset]

theorem fetchTile_filterMap {β : Type} (f : Event → Option β) (hf : IgnoresFetchBody f)
    (env : Env) (fuel x y z polls : Nat) :
    (fetchTile env fuel x y z polls).trace.filterMap f = (f (Event.fetchTile x y z)).toList := by
  simp only [fetchTile, List.filterMap_cons, fetchTileLoop_filterMap f hf]
  cases f (Event.fetchTile x y z) <;> simp

theorem forLoop_filterMap {β : Type} (f : Event → Option β) (env : Env)
    (hctx : env.cancelAt = none) (body : Nat → Nat → Run) (c : Nat → List β) :
    ∀ (l : List Nat),
      (∀ i ∈ l, ∀ p, (body i p).res = Res.ok ∧ (body i p).trace.filterMap f = c i) →
      ∀ polls, (forLoop env body l polls).res = Res.ok ∧
        (forLoop env body l polls).trace.filterMap f = l.flatMap c := by
  intro l
  induction l with
  | nil => intro _ polls; simp [forLoop]
  | cons i rest ih =>
    intro hb polls
    have hi := hb i (List.mem_cons_self i rest) (polls + 1)
    have hrest := ih (fun j hj p => hb j (List.mem_cons_of_mem i hj) p)
      (body i (polls + 1)).polls
    rw [forLoop]
    simp only [ctxErr_of_cancelAt_none env hctx, Bool.false_eq_true, if_false, hi.1]
    exact ⟨hrest.1, by simp [List.filterMap_append, hi.2, hrest.2]⟩

theorem genXLayerNoConstraints_filterMap {β : Type} (f : Event → Option β)
    (hf : IgnoresFetchBody f) (env : Env) (hctx : env.cancelAt = none) (fuel x z : Nat)
    (hfetch : ∀ y p, y < layerSize z → (fetchTile env fuel x y z p).res = Res.ok)
    (polls : Nat) :
    (genXLayerNoConstraints env fuel x z polls).res = Res.ok ∧
    (genXLayerNoConstraints env fuel x z polls).trace.filterMap f =
      (List.range (layerSize z)).flatMap fun y => (f (Event.fetchTile x y z)).toList :=
  forLoop_filterMap f env hctx _ _ _
    (fun y hy p => ⟨hfetch y p (List.mem_range.mp hy),
      fetchTile_filterMap f hf env fuel x y z p⟩) polls

theorem genXLayer_filterMap {β : Type} (f : Event → Option β)
    (hf : IgnoresFetchBody f) (env : Env) (hctx : env.cancelAt = none) (cfg : Config)
    (fuel x z : Nat)
    (hfetch : ∀ y p, y < layerSize z → tileIsDetailed cfg x y z = true →
      (fetchTile env fuel x y z p).res = Res.ok)
    (polls : Nat) :
    (genXLayer env cfg fuel x z polls).res = Res.ok ∧
    (genXLayer env cfg fuel x z polls).trace.filterMap f =
      (List.range (layerSize z)).flatMap fun y =>
        if tileIsDetailed cfg x y z then (f (Event.fetchTile x y z)).toList else [] := by
  apply forLoop_filterMap f env hctx
  intro y hy p
  by_cases ht : tileIsDetailed cfg x y z = true
  · simp only [ht, if_true]
    exact ⟨hfetch y p (List.mem_range.mp hy) ht, fetchTile_filterMap f hf env fuel x y z p⟩
  · simp [ht]

theorem genZLayer_filterMap {β : Type} (f : Event → Option β)
    (hf : IgnoresFetchBody f) (env : Env) (hctx : env.cancelAt = none) (cfg : Config)
    (fuel z : Nat)
    (hfetch : ∀ x y p, x < layerSize z → y < layerSize z → inScope cfg x y z = true →
      (fetchTile env fuel x y z p).res = Res.ok)
    (polls : Nat) :
    (genZLayer env cfg fuel z polls).res = Res.ok ∧
    (genZLayer env cfg fuel z polls).trace.filterMap f =
      (List.range (layerSize z)).flatMap fun x =>
        (List.range (layerSize z)).flatMap fun y =>
          if inScope cfg x y z then (f (Event.fetchTile x y z)).toList else [] := by
  unfold genZLayer
  by_cases hz : (z : Int) ≤ cfg.PlanetMaxZoom
  · simp only [hz, if_true, inScope, decide_True, Bool.true_or]
    exact forLoop_filterMap f env hctx _ _ _
      (fun x hx p => genXLayerNoConstraints_filterMap f hf env hctx fuel x z
        (fun y q hy => hfetch x y q (List.mem_range.mp hx) hy (by simp [inScope, hz])) p) polls
  · simp only [hz, if_false, inScope, decide_False, Bool.false_or]
    apply forLoop_filterMap f env hctx
    intro x hx p
    by_cases hc : columnIsDetailed cfg x z = true
    · simp only [hc, if_true]
      exact genXLayer_filterMap f hf env hctx cfg fuel x z
        (fun y q hy ht => hfetch x y q (List.mem_range.mp hx) hy (by simp [inScope, ht])) p
    · simp only [hc, Bool.false_eq_true, if_false, List.filterMap_nil, true_and]
      symm
      rw [List.flatMap_eq_nil_iff]
      intro y _
      have ht : tileIsDetailed cfg x y z = false := by
        cases h : tileIsDetailed cfg x y z
        · rfl
        · exact absurd (columnIsDetailed_of_tileIsDetailed cfg x y z h) hc
      simp [ht]

theorem processLayer_filterMap {β : Type} (f : Event → Option β)
    (hf : IgnoresFetchBody f) (env : Env) (hctx : env.cancelAt = none) (cfg : Config)
    (fuel z : Nat)
    (hfetch : ∀ x y p, x < layerSize z → y < layerSize z → inScope cfg x y z = true →
      (fetchTile env fuel x y z p).res = Res.ok)
    (hflush : env.flushFails z = false) (polls : Nat) :
    (processLayer env cfg fuel z polls).res = Res.ok ∧
    (processLayer env cfg fuel z polls).trace.filterMap f =
      ((List.range (layerSize z)).flatMap fun x =>
        (List.range (layerSize z)).flatMap fun y =>
          if inScope cfg x y z then (f (Event.fetchTile x y z)).toList else []) ++
      (f (Event.flush z)).toList := by
  have hg := genZLayer_filterMap f hf env hctx cfg fuel z hfetch polls
  unfold processLayer
  simp only [hg.1, hflush, Bool.false_eq_true, if_false, List.filterMap_append, hg.2, true_and]
  cases hfl : f (Event.flush z) <;> simp [hfl]

/-- The fetches and flushes that the loops of `Process` reach, when nothing
aborts the run: the zoom levels below `maxZoomLevel + 1`, and in each of them
the in-scope tiles of the grid `layerSize z` by `layerSize z`. -/
theorem Process_filterMap {β : Type} (f : Event → Option β)
    (hf : IgnoresFetchBody f) (env : Env) (hctx : env.cancelAt = none) (cfg : Config)
    (fuel : Nat)
    (hfetch : ∀ x y z p, z < (maxZoomLevel cfg + 1).toNat → x < layerSize z → y < layerSize z →
      inScope cfg x y z = true → (fetchTile env fuel x y z p).res = Res.ok)
    (hflush : ∀ z, z < (maxZoomLevel cfg + 1).toNat → env.flushFails z = false) (polls : Nat) :
    (Process env cfg fuel polls).res = Res.ok ∧
    (Process env cfg fuel polls).trace.filterMap f =
      (List.range (maxZoomLevel cfg + 1).toNat).flatMap fun z =>
        ((List.range (layerSize z)).flatMap fun x =>
          (List.range (layerSize z)).flatMap fun y =>
            if inScope cfg x y z then (f (Event.fetchTile x y z)).toList else []) ++
        (f (Event.flush z)).toList :=
  forLoop_filterMap f env hctx _ _ _
    (fun z hz p => processLayer_filterMap f hf env hctx cfg fuel z
      (fun x y q hx hy h => hfetch x y z q (List.mem_range.mp hz) hx hy h)
      (hflush z (List.mem_range.mp hz)) p) polls

/-! ## The pruned traversal against the naive enumeration -/

theorem foldl_max_eq_foldr (l : List DetailedRegionConfig) :
    ∀ p : Int, l.foldl (fun m region => max m region.MaxZoom) p =
      (l.map fun region => region.MaxZoom).foldr max p := by
  induction l with
  | nil => intro p; rfl
  | cons r rest ih =>
    intro p
    simp only [List.foldl_cons, List.map_cons, List.foldr_cons, ih]
    clear ih
    induction rest with
    | nil => simp [max_comm]
    | cons s rest ih2 =>
      simp only [List.map_cons, List.foldr_cons, ih2]
      exact max_left_comm _ _ _

theorem maxZoomLevel_eq_specMaxZoom (cfg : Config) : maxZoomLevel cfg = specMaxZoom cfg :=
  foldl_max_eq_foldr cfg.DetailedRegions cfg.PlanetMaxZoom

theorem inScope_eq_specInScope (cfg : Config) (x y z : Nat) :
    inScope cfg x y z = specInScope cfg x y z := by
  unfold inScope specInScope tileIsDetailed
  congr 2
  funext region
  congr 1
  by_cases h : (z : Int) > region.MaxZoom
  · simp [h, not_le.mpr h]
  · simp [h, not_lt.mp h]

theorem layerSize_eq_pow (z : Nat) (hz : z ≤ 62) : layerSize z = 2 ^ z := by
  interval_cases z <;> decide

theorem flatMap_ite_singleton {α β : Type} (p : α → Bool) (g : α → β) (l : List α) :
    (l.flatMap fun a => if p a then [g a] else []) = (l.filter p).map g := by
  induction l with
  | nil => rfl
  | cons a rest ih =>
    simp only [List.flatMap_cons, ih, List.filter_cons]
    by_cases h : p a = true <;> simp [h]

theorem fetched_ignoresFetchBody :
    IgnoresFetchBody (fun e => match e with
      | Event.fetchTile x y z => some (z, x, y)
      | _ => none) :=
  ⟨fun _ _ _ _ => rfl, fun _ => rfl, fun _ _ _ _ => rfl⟩

/-- The tiles fetched by a run that is not cancelled and in which every fetch
and every flush that the loops reach succeeds, for any configuration. -/
theorem fetched_Process (env : Env) (hctx : env.cancelAt = none) (cfg : Config)
    (fuel : Nat)
    (hfetch : ∀ x y z p, z < (maxZoomLevel cfg + 1).toNat → x < layerSize z → y < layerSize z →
      inScope cfg x y z = true → (fetchTile env fuel x y z p).res = Res.ok)
    (hflush : ∀ z, z < (maxZoomLevel cfg + 1).toNat → env.flushFails z = false) (polls : Nat) :
    fetched (Process env cfg fuel polls).trace =
      (List.range (maxZoomLevel cfg + 1).toNat).flatMap fun z =>
        (List.range (layerSize z)).flatMap fun x =>
          ((List.range (layerSize z)).filter fun y => inScope cfg x y z).map
            fun y => (z, x, y) := by
  have h := (Process_filterMap _ fetched_ignoresFetchBody env hctx cfg fuel hfetch hflush polls).2
  unfold fetched
  rw [h]
  simp only [Option.toList, List.append_nil]
  congr 1
  funext z
  congr 1
  funext x
  exact flatMap_ite_singleton (fun y => inScope cfg x y z) (fun y => (z, x, y)) _

theorem naiveTiles_pairwise (cfg : Config) : (naiveTiles cfg).Pairwise tileLt := by
  unfold naiveTiles
  rw [List.pairwise_flatMap]
  constructor
  · intro z _
    rw [List.pairwise_flatMap]
    constructor
    · intro x _
      rw [List.pairwise_map]
      apply List.Pairwise.filter
      refine List.Pairwise.imp ?_ (List.pairwise_lt_range _)
      intro a b hab
      exact Or.inr ⟨rfl, Or.inr ⟨rfl, hab⟩⟩
    · refine List.Pairwise.imp ?_ (List.pairwise_lt_range _)
      intro x1 x2 hx a ha b hb
      simp only [List.mem_map, List.mem_filter] at ha hb
      obtain ⟨_, _, rfl⟩ := ha
      obtain ⟨_, _, rfl⟩ := hb
      exact Or.inr ⟨rfl, Or.inl hx⟩
  · refine List.Pairwise.imp ?_ (List.pairwise_lt_range _)
    intro z1 z2 hz a ha b hb
    simp only [List.mem_flatMap, List.mem_map, List.mem_filter] at ha hb
    obtain ⟨_, _, _, _, rfl⟩ := ha
    obtain ⟨_, _, _, _, rfl⟩ := hb
    exact Or.inl hz

/-- C1, as stated, fails: with `planetMaxZoom = 1`, no regions, no
cancellation and every fetch succeeding, a `Flush` that returns an error after
layer 0 ends `Process`: the only tile passed to `fetchTile` is `(0, 0, 0)`,
while the naive enumeration has five tiles. -/
theorem flush_error_cuts_enumeration :
    (0 : Int) ≤ (planetOnly 1).PlanetMaxZoom ∧
    specMaxZoom (planetOnly 1) ≤ 62 ∧
    envFlushFails.cancelAt = none ∧
    (∀ x y z p, (fetchTile envFlushFails 1 x y z p).res = Res.ok) ∧
    (Process envFlushFails (planetOnly 1) 1 0).res = Res.fail Err.flushFailed ∧
    fetched (Process envFlushFails (planetOnly 1) 1 0).trace = [(0, 0, 0)] ∧
    naiveTiles (planetOnly 1) = [(0, 0, 0), (1, 0, 0), (1, 0, 1), (1, 1, 0), (1, 1, 1)] ∧
    fetched (Process envFlushFails (planetOnly 1) 1 0).trace ≠ naiveTiles (planetOnly 1) :=
  ⟨by decide, by decide, rfl, fun _ _ _ _ => rfl, by decide, by decide, by decide, by decide⟩

/-- C1, amended. For every configuration whose zoom levels stay at most 62 (so
that `1 << z` does not overflow) and every run of `Process` in which the
context is never cancelled and each fetch and each `Flush` succeeds (the
fetches of the in-scope tiles of the grids of the zoom levels up to
`maxZoomLevel`, the flushes after these levels), `Process` returns nil and the
sequence of tiles passed to `fetchTile` is the naive enumeration: all
`(z, x, y)` with `z` from 0 to `max(P, max MaxZoom)`, `x` and `y` in
`[0, 2^z)`, in strictly increasing lexicographic order, keeping exactly the
tiles with `z <= P` or contained in some region with `MaxZoom >= z`. -/
theorem Process_fetches_naiveTiles (env : Env) (cfg : Config) (fuel polls : Nat)
    (hzoom : specMaxZoom cfg ≤ 62)
    (hctx : env.cancelAt = none)
    (hfetch : ∀ x y z p : Nat, (z : Int) ≤ maxZoomLevel cfg → x < 2 ^ z → y < 2 ^ z →
      inScope cfg x y z = true → (fetchTile env fuel x y z p).res = Res.ok)
    (hflush : ∀ z : Nat, (z : Int) ≤ maxZoomLevel cfg → env.flushFails z = false) :
    (Process env cfg fuel polls).res = Res.ok ∧
    fetched (Process env cfg fuel polls).trace = naiveTiles cfg ∧
    (naiveTiles cfg).Pairwise tileLt ∧
    ∀ z x y, (z, x, y) ∈ naiveTiles cfg ↔
      ((z : Int) ≤ specMaxZoom cfg ∧ x < 2 ^ z ∧ y < 2 ^ z ∧ specInScope cfg x y z = true) := by
  have hmax := maxZoomLevel_eq_specMaxZoom cfg
  have hfetch' : ∀ x y z p, z < (maxZoomLevel cfg + 1).toNat → x < layerSize z →
      y < layerSize z → inScope cfg x y z = true →
      (fetchTile env fuel x y z p).res = Res.ok := by
    intro x y z p hz hx hy hs
    have hz62 : z ≤ 62 := by omega
    rw [layerSize_eq_pow z hz62] at hx hy
    exact hfetch x y z p (by omega) hx hy hs
  have hflush' : ∀ z, z < (maxZoomLevel cfg + 1).toNat → env.flushFails z = false :=
    fun z hz => hflush z (by omega)
  refine ⟨(Process_filterMap _ fetched_ignoresFetchBody env hctx cfg fuel hfetch' hflush'
    polls).1, ?_, naiveTiles_pairwise cfg, ?_⟩
  · rw [fetched_Process env hctx cfg fuel hfetch' hflush' polls, hmax]
    unfold naiveTiles
    apply List.flatMap_congr
    intro z hz
    have hz62 : z ≤ 62 := by
      rw [List.mem_range] at hz
      omega
    rw [layerSize_eq_pow z hz62]
    congr 1
    funext x
    congr 2
    funext y
    exact inScope_eq_specInScope cfg x y z
  · intro z x y
    unfold naiveTiles
    simp only [List.mem_flatMap, List.mem_map, List.mem_filter, List.mem_range, Prod.mk.injEq]
    constructor
    · rintro ⟨z', hz', x', hx', y', ⟨hy', hs⟩, rfl, rfl, rfl⟩
      exact ⟨by omega, hx', hy', hs⟩
    · rintro ⟨hz, hx, hy, hs⟩
      exact ⟨z, by omega, x, hx, y, ⟨hy, hs⟩, rfl, rfl, rfl⟩

/-- C1, amended, at the default configuration, against a server and a store
that never fail. -/
theorem Process_fetches_naiveTiles_witness :
    specMaxZoom defaultConfig ≤ 62 ∧
    envOk.cancelAt = none ∧
    (∀ x y z p : Nat, (z : Int) ≤ maxZoomLevel defaultConfig → x < 2 ^ z → y < 2 ^ z →
      inScope defaultConfig x y z = true → (fetchTile envOk 1 x y z p).res = Res.ok) ∧
    (∀ z : Nat, (z : Int) ≤ maxZoomLevel defaultConfig → envOk.flushFails z = false) ∧
    ((Process envOk defaultConfig 1 0).res = Res.ok ∧
    fetched (Process envOk defaultConfig 1 0).trace = naiveTiles defaultConfig ∧
    (naiveTiles defaultConfig).Pairwise tileLt ∧
    ∀ z x y, (z, x, y) ∈ naiveTiles defaultConfig ↔
      ((z : Int) ≤ specMaxZoom defaultConfig ∧ x < 2 ^ z ∧ y < 2 ^ z ∧
        specInScope defaultConfig x y z = true)) :=
  ⟨by decide, rfl, fun _ _ _ _ _ _ _ _ => rfl, fun _ _ => rfl,
    Process_fetches_naiveTiles envOk defaultConfig 1 0 (by decide) rfl
      (fun _ _ _ _ _ _ _ _ => rfl) (fun _ _ => rfl)⟩

/-! ## The planet without regions -/

theorem sum_map_const {α : Type} (l : List α) (n : Nat) :
    (l.map fun _ => n).sum = l.length * n := by
  induction l with
  | nil => simp
  | cons a rest ih => simp [ih, Nat.add_mul, Nat.add_comm]

theorem flatMap_nil_fun {α β : Type} (l : List α) :
    (l.flatMap fun _ => ([] : List β)) = [] := by
  induction l with
  | nil => rfl
  | cons a rest ih => simp

theorem inScope_of_le (cfg : Config) (x y z : Nat) (h : (z : Int) ≤ cfg.PlanetMaxZoom) :
    inScope cfg x y z = true := by
  simp [inScope, h]

theorem maxZoomLevel_of_no_regions (cfg : Config) (h : cfg.DetailedRegions = []) :
    maxZoomLevel cfg = cfg.PlanetMaxZoom := by
  simp [maxZoomLevel, h]

theorem marks_ignoresFetchBody :
    IgnoresFetchBody (fun e => match e with
      | Event.fetchTile x y z => some (Event.fetchTile x y z)
      | Event.flush z => some (Event.flush z)
      | _ => none) :=
  ⟨fun _ _ _ _ => rfl, fun _ => rfl, fun _ _ _ _ => rfl⟩

theorem flushes_ignoresFetchBody :
    IgnoresFetchBody (fun e => match e with
      | Event.flush z => some z
      | _ => none) :=
  ⟨fun _ _ _ _ => rfl, fun _ => rfl, fun _ _ _ _ => rfl⟩

/-- The fetches and flushes of a run without regions that is not cancelled and
in which every fetch and every flush succeeds: layer after layer, all the
tiles of the layer and then its flush. -/
theorem marksOf_Process_planet (env : Env) (hctx : env.cancelAt = none) (cfg : Config)
    (hreg : cfg.DetailedRegions = []) (fuel : Nat)
    (hfetch : ∀ x y z p, z < (maxZoomLevel cfg + 1).toNat → x < layerSize z → y < layerSize z →
      inScope cfg x y z = true → (fetchTile env fuel x y z p).res = Res.ok)
    (hflush : ∀ z, z < (maxZoomLevel cfg + 1).toNat → env.flushFails z = false) (polls : Nat) :
    marksOf (Process env cfg fuel polls).trace =
      (List.range (cfg.PlanetMaxZoom + 1).toNat).flatMap fun z =>
        ((List.range (layerSize z)).flatMap fun x =>
          (List.range (layerSize z)).map fun y => Event.fetchTile x y z) ++
        [Event.flush z] := by
  have h := (Process_filterMap _ marks_ignoresFetchBody env hctx cfg fuel hfetch hflush polls).2
  unfold marksOf
  rw [h, maxZoomLevel_of_no_regions cfg hreg]
  apply List.flatMap_congr
  intro z hz
  rw [List.mem_range] at hz
  have hzP : (z : Int) ≤ cfg.PlanetMaxZoom := by omega
  simp only [Option.toList, inScope_of_le cfg _ _ z hzP, if_true, List.map_eq_flatMap]

theorem fetched_length_planet (env : Env) (hctx : env.cancelAt = none) (cfg : Config)
    (hreg : cfg.DetailedRegions = []) (fuel : Nat)
    (hfetch : ∀ x y z p, z < (maxZoomLevel cfg + 1).toNat → x < layerSize z → y < layerSize z →
      inScope cfg x y z = true → (fetchTile env fuel x y z p).res = Res.ok)
    (hflush : ∀ z, z < (maxZoomLevel cfg + 1).toNat → env.flushFails z = false) (polls : Nat) :
    (fetched (Process env cfg fuel polls).trace).length =
      ((List.range (cfg.PlanetMaxZoom + 1).toNat).map fun z => layerSize z * layerSize z).sum := by
  rw [fetched_Process env hctx cfg fuel hfetch hflush polls, maxZoomLevel_of_no_regions cfg hreg,
    List.length_flatMap]
  congr 1
  apply List.map_congr_left
  intro z hz
  rw [List.mem_range] at hz
  have hzP : (z : Int) ≤ cfg.PlanetMaxZoom := by omega
  have hfil : ∀ x, ((List.range (layerSize z)).filter fun y => inScope cfg x y z) =
      List.range (layerSize z) := by
    intro x
    rw [List.filter_eq_self]
    intro y _
    exact inScope_of_le cfg x y z hzP
  simp only [hfil, List.length_flatMap, Function.comp_def, List.length_map, List.length_range]
  rw [sum_map_const, List.length_range]

theorem flushesOf_Process (env : Env) (hctx : env.cancelAt = none) (cfg : Config)
    (fuel : Nat)
    (hfetch : ∀ x y z p, z < (maxZoomLevel cfg + 1).toNat → x < layerSize z → y < layerSize z →
      inScope cfg x y z = true → (fetchTile env fuel x y z p).res = Res.ok)
    (hflush : ∀ z, z < (maxZoomLevel cfg + 1).toNat → env.flushFails z = false) (polls : Nat) :
    flushesOf (Process env cfg fuel polls).trace = List.range (maxZoomLevel cfg + 1).toNat := by
  have h := (Process_filterMap _ flushes_ignoresFetchBody env hctx cfg fuel hfetch hflush polls).2
  unfold flushesOf
  rw [h]
  simp only [Option.toList, ite_self, flatMap_nil_fun, List.nil_append, List.flatMap_singleton']

theorem sum_four_pow (n : Nat) :
    ((List.range n).map fun z => 2 ^ z * 2 ^ z).sum = (4 ^ n - 1) / 3 := by
  have h : ∀ m : Nat, ((List.range m).map fun z => 2 ^ z * 2 ^ z).sum * 3 + 1 = 4 ^ m := by
    intro m
    induction m with
    | zero => rfl
    | succ k ih =>
      rw [List.sum_range_succ, pow_succ, ← ih]
      have h4 : (2 : Nat) ^ k * 2 ^ k = 4 ^ k := by
        rw [← mul_pow]
        norm_num
      rw [h4, ← ih]
      ring
  have := h n
  omega

/-- C7, as stated, fails twice. With `planetMaxZoom = 2`, every fetch
succeeding and no cancellation, a `Flush` that returns an error after layer 0
ends `Process` after 1 fetch call and 1 `Flush` call, not 21 and 3. And for
`planetMaxZoom >= 63` the formula fails: at zoom 63 the bound `1 << z` of the
column and row loops overflows to a negative number and the layer is empty,
so the run with `planetMaxZoom = 63` makes `(4^63 - 1)/3` fetch calls, not
`(4^64 - 1)/3`. -/
theorem planet_fetch_count_counterexample :
    ((∀ x y z p, (fetchTile envFlushFails 1 x y z p).res = Res.ok) ∧
      envFlushFails.cancelAt = none ∧
      (fetched (Process envFlushFails (planetOnly 2) 1 0).trace).length = 1 ∧
      (flushesOf (Process envFlushFails (planetOnly 2) 1 0).trace).length = 1) ∧
    layerSize 63 = 0 ∧
    (fetched (Process envOk (planetOnly 63) 1 0).trace).length = (4 ^ 63 - 1) / 3 ∧
    (fetched (Process envOk (planetOnly 63) 1 0).trace).length ≠ (4 ^ (63 + 1) - 1) / 3 := by
  have h := fetched_length_planet envOk rfl (planetOnly 63) rfl 1 (fun _ _ _ _ _ _ _ _ => rfl)
    (fun _ _ => rfl) 0
  rw [h]
  exact ⟨⟨fun _ _ _ _ => rfl, rfl, by decide, by decide⟩, by decide, by decide, by decide⟩

/-- C7, amended. With no regions and `0 <= planetMaxZoom = P <= 62`, in a run
that is not cancelled and in which every fetch and every `Flush` succeeds (the
fetches of the tiles of the grids of the zoom levels `0` to `P`, the flushes
after these levels), `Process` fetches layer after layer all `2^z * 2^z` tiles
of the zoom levels `0` to `P`, calls `Flush` once after the last tile of each
level and before the first tile of the next, and so makes `(4^(P+1) - 1)/3`
fetch calls and `P + 1` `Flush` calls: 21 and 3 for `P = 2`. -/
theorem planet_fetch_and_flush_counts (env : Env) (cfg : Config) (fuel polls : Nat)
    (hreg : cfg.DetailedRegions = [])
    (hP0 : 0 ≤ cfg.PlanetMaxZoom)
    (hP : cfg.PlanetMaxZoom ≤ 62)
    (hctx : env.cancelAt = none)
    (hfetch : ∀ x y z p : Nat, (z : Int) ≤ cfg.PlanetMaxZoom → x < 2 ^ z → y < 2 ^ z →
      (fetchTile env fuel x y z p).res = Res.ok)
    (hflush : ∀ z : Nat, (z : Int) ≤ cfg.PlanetMaxZoom → env.flushFails z = false) :
    (Process env cfg fuel polls).res = Res.ok ∧
    marksOf (Process env cfg fuel polls).trace =
      ((List.range (cfg.PlanetMaxZoom.toNat + 1)).flatMap fun z =>
        ((List.range (2 ^ z)).flatMap fun x =>
          (List.range (2 ^ z)).map fun y => Event.fetchTile x y z) ++
        [Event.flush z]) ∧
    (fetched (Process env cfg fuel polls).trace).length =
      (4 ^ (cfg.PlanetMaxZoom.toNat + 1) - 1) / 3 ∧
    (flushesOf (Process env cfg fuel polls).trace).length = cfg.PlanetMaxZoom.toNat + 1 := by
  have hN : (cfg.PlanetMaxZoom + 1).toNat = cfg.PlanetMaxZoom.toNat + 1 := by omega
  have hmax := maxZoomLevel_of_no_regions cfg hreg
  have hfetch' : ∀ x y z p, z < (maxZoomLevel cfg + 1).toNat → x < layerSize z →
      y < layerSize z → inScope cfg x y z = true →
      (fetchTile env fuel x y z p).res = Res.ok := by
    intro x y z p hz hx hy _
    have hz62 : z ≤ 62 := by omega
    rw [layerSize_eq_pow z hz62] at hx hy
    exact hfetch x y z p (by omega) hx hy
  have hflush' : ∀ z, z < (maxZoomLevel cfg + 1).toNat → env.flushFails z = false :=
    fun z hz => hflush z (by omega)
  refine ⟨(Process_filterMap _ marks_ignoresFetchBody env hctx cfg fuel hfetch' hflush' polls).1,
    ?_, ?_, ?_⟩
  · rw [marksOf_Process_planet env hctx cfg hreg fuel hfetch' hflush' polls, hN]
    apply List.flatMap_congr
    intro z hz
    rw [List.mem_range] at hz
    rw [layerSize_eq_pow z (by omega)]
  · rw [fetched_length_planet env hctx cfg hreg fuel hfetch' hflush' polls, hN, ← sum_four_pow]
    congr 1
    apply List.map_congr_left
    intro z hz
    rw [List.mem_range] at hz
    rw [layerSize_eq_pow z (by omega)]
  · rw [flushesOf_Process env hctx cfg fuel hfetch' hflush' polls, hmax, hN, List.length_range]

/-- C7, amended, at `planetMaxZoom = 2`: 21 fetch calls and 3 flushes. -/
theorem planet_fetch_and_flush_counts_witness :
    (planetOnly 2).DetailedRegions = [] ∧
    0 ≤ (planetOnly 2).PlanetMaxZoom ∧
    (planetOnly 2).PlanetMaxZoom ≤ 62 ∧
    envOk.cancelAt = none ∧
    (∀ x y z p : Nat, (z : Int) ≤ (planetOnly 2).PlanetMaxZoom → x < 2 ^ z → y < 2 ^ z →
      (fetchTile envOk 1 x y z p).res = Res.ok) ∧
    (∀ z : Nat, (z : Int) ≤ (planetOnly 2).PlanetMaxZoom → envOk.flushFails z = false) ∧
    ((Process envOk (planetOnly 2) 1 0).res = Res.ok ∧
    marksOf (Process envOk (planetOnly 2) 1 0).trace =
      ((List.range 3).flatMap fun z =>
        ((List.range (2 ^ z)).flatMap fun x =>
          (List.range (2 ^ z)).map fun y => Event.fetchTile x y z) ++
        [Event.flush z]) ∧
    (fetched (Process envOk (planetOnly 2) 1 0).trace).length = 21 ∧
    (flushesOf (Process envOk (planetOnly 2) 1 0).trace).length = 3) :=
  ⟨rfl, by decide, by decide, rfl, fun _ _ _ _ _ _ _ => rfl, fun _ _ => rfl,
    planet_fetch_and_flush_counts envOk (planetOnly 2) 1 0 rfl (by decide) (by decide) rfl
      (fun _ _ _ _ _ _ _ => rfl) (fun _ _ => rfl)⟩

/-! ## Cancellation -/

/-- C4 on the code. A context that is already cancelled when `Process` is
called makes `Process` return nil without any fetch; a cancellation seen by the
guard of the zoom loop after layer 0 makes `Process` return nil with layer 1
never started. Only a cancellation seen by the guard of the retry loop of
`fetchTile` comes back as the error of the context. -/
theorem Process_cancelled_returns_nil :
    Process (envCancelAt 0) defaultConfig 1 0 = ⟨Res.ok, 1, []⟩ ∧
    Process (envCancelAt 6) (planetOnly 1) 1 0 =
      ⟨Res.ok, 7,
        [Event.fetchTile 0 0 0, Event.get 0 0 0 0, Event.setEntryFile 0 0 0 0, Event.flush 0]⟩ ∧
    Process (envCancelAt 3) (planetOnly 0) 1 0 =
      ⟨Res.fail Err.canceled, 5, [Event.fetchTile 0 0 0]⟩ := by
  decide

/-- C5 on the code. With `planetMaxZoom = 1` and a cancellation seen by the
guard of the row loop after the first tile of zoom 1, the loops of layer 1 end
with nil and `Process` calls `Flush` for layer 1 although three of its four
tiles were never fetched. -/
theorem Process_flushes_partial_layer :
    Process (envCancelAt 10) (planetOnly 1) 1 0 =
      ⟨Res.ok, 13,
        [Event.fetchTile 0 0 0, Event.get 0 0 0 0, Event.setEntryFile 0 0 0 0, Event.flush 0,
          Event.fetchTile 0 0 1, Event.get 0 0 1 0, Event.setEntryFile 0 0 1 0,
          Event.flush 1]⟩ := by
  decide

/-! ## Runs of the model on small inputs -/

/-- The run with `planetMaxZoom = 2`, no regions, against a server and a store
that never fail: 1 + 4 + 16 fetches, a flush after each layer. -/
theorem marksOf_Process_planetOnly_two :
    marksOf (Process envOk (planetOnly 2) 1 0).trace =
      [Event.fetchTile 0 0 0, Event.flush 0,
       Event.fetchTile 0 0 1, Event.fetchTile 0 1 1, Event.fetchTile 1 0 1,
       Event.fetchTile 1 1 1, Event.flush 1,
       Event.fetchTile 0 0 2, Event.fetchTile 0 1 2, Event.fetchTile 0 2 2,
       Event.fetchTile 0 3 2, Event.fetchTile 1 0 2, Event.fetchTile 1 1 2,
       Event.fetchTile 1 2 2, Event.fetchTile 1 3 2, Event.fetchTile 2 0 2,
       Event.fetchTile 2 1 2, Event.fetchTile 2 2 2, Event.fetchTile 2 3 2,
       Event.fetchTile 3 0 2, Event.fetchTile 3 1 2, Event.fetchTile 3 2 2,
       Event.fetchTile 3 3 2, Event.flush 2] := by
  decide

/-- A run that aborts on the fatal 404 of its first tile: nine GETs, no flush. -/
theorem Process_fatal_fetch_no_flush :
    (Process env404 (planetOnly 1) 9 0).res = Res.fail (Err.badStatus 404) ∧
    marksOf (Process env404 (planetOnly 1) 9 0).trace = [Event.fetchTile 0 0 0] ∧
    (Process env404 (planetOnly 1) 9 0).trace.length = 18 := by
  decide

/-- A context that is cancelled before a loop starts ends the loop at its
first guard: the loop returns nil and does nothing. -/
theorem forLoop_of_cancelled (env : Env) (body : Nat → Nat → Run) (l : List Nat) (polls : Nat)
    (h : ctxErr env polls = true) : forLoop env body l polls = ⟨Res.ok, polls + 1, []⟩ := by
  cases l with
  | nil => rfl
  | cons i rest => simp [forLoop, h]

end Cinobelix
